import Mathlib

/-! Verification of `internal/auth/service.go`

A shallow embedding of the authentication service (`GetUserCount`, `Login`,
`CreateUser`) together with its collaborators: the user service (the store),
the `argon2id` package (the hasher) and the `os` package (the filesystem).

The collaborators are not part of the verified file; they are taken as
parameters acting on an explicit world state `σ`.  Every service operation
returns its Go return value, the world state it leaves behind and the list of
collaborator calls it made, in order.
-/

namespace Auth

/-! ## Data model -/

/-- The record `domain.User`, restricted to the two fields the service reads or writes. -/
structure User where
  Username : String
  Password : String
  deriving DecidableEq, Repr

/-- The record `domain.CreateUserRequest`. -/
structure CreateUserRequest where
  Username : String
  Password : String
  LogDir : String
  deriving DecidableEq, Repr

/-- Go `error` values seen by the caller of the service: either a value built
by `errors.New` inside the service (identified by its text), or an error value
handed over by a collaborator (of an arbitrary type `ε`). -/
inductive GoError (ε : Type) where
  | errorsNew (text : String)
  | collab (e : ε)
  deriving DecidableEq, Repr

/-- The method `Error()` of an error value; `txt` is `Error()` on collaborator errors. -/
def GoError.Error {ε : Type} (txt : ε → String) : GoError ε → String
  | .errorsNew text => text
  | .collab e => txt e

/-- One call made by the service to a collaborator, with its arguments. -/
inductive Call (π : Type) where
  | GetUserCount
  | FindByUsername (username : String)
  | CreateUser (u : User)
  | ComparePasswordAndHash (password hash : String)
  | CreateHash (password : String) (params : π)
  | MkdirAll (path : String) (perm : Nat)
  deriving DecidableEq, Repr

/-- The interface `user.Service` as used by the auth service.  Go results
`(value, error)` are pairs whose second component is `none` for `nil`. -/
structure UserService (σ ε : Type) where
  GetUserCount : σ → (Int × Option ε) × σ
  FindByUsername : String → σ → (Option User × Option ε) × σ
  CreateUser : User → σ → Option ε × σ

/-- The package `argon2id` as used by the auth service; `π` is the type of
its parameter sets and `DefaultParams` its exported default. -/
structure Argon2id (σ ε π : Type) where
  DefaultParams : π
  ComparePasswordAndHash : String → String → σ → (Bool × Option ε) × σ
  CreateHash : String → π → σ → (String × Option ε) × σ

/-- The collaborators of the service: the injected `userSvc`, the `argon2id`
package, `os.MkdirAll`, and the `Error()` method of collaborator errors. -/
structure Deps (σ ε π : Type) where
  userSvc : UserService σ ε
  argon2id : Argon2id σ ε π
  MkdirAll : String → Nat → σ → Option ε × σ
  errText : ε → String

/-- The outcome of one service operation: the Go return value, the world
state afterwards and the collaborator calls made, oldest first. -/
structure Run (α σ π : Type) where
  ret : α
  state : σ
  calls : List (Call π)

/-! ## Go standard library pieces -/

/-- Go `os.ModePerm`, the permission bits `0o777`. -/
def ModePerm : Nat := 0o777

/-- Go `unicode.IsSpace`: the Latin-1 spaces and the code points with the
Unicode White_Space property. -/
def isSpace (c : Char) : Bool :=
  let n := c.toNat
  n == 0x20 || (0x09 ≤ n && n ≤ 0x0D) || n == 0x85 || n == 0xA0 || n == 0x1680 ||
  (0x2000 ≤ n && n ≤ 0x200A) || n == 0x2028 || n == 0x2029 || n == 0x202F ||
  n == 0x205F || n == 0x3000

/-- Go `strings.TrimSpace`: the string without its leading and trailing white space. -/
def TrimSpace (s : String) : String :=
  String.mk (((s.data.dropWhile isSpace).reverse.dropWhile isSpace).reverse)

/-! ## The service (`internal/auth/service.go`) -/

section Service

variable {σ ε π : Type}

/-- The method `service.GetUserCount`: delegation to the user service. -/
def GetUserCount (d : Deps σ ε π) (s : σ) : Run (Int × Option (GoError ε)) σ π :=
  let r := d.userSvc.GetUserCount s
  ⟨(r.1.1, r.1.2.map GoError.collab), r.2, [Call.GetUserCount]⟩

/-- The method `service.Login`. -/
def Login (d : Deps σ ε π) (username password : String) (s : σ) :
    Run (Option User × Option (GoError ε)) σ π :=
  if username = "" ∨ password = "" then
    ⟨(none, some (.errorsNew "empty credentials supplied")), s, []⟩
  else
    -- find user
    let r := d.userSvc.FindByUsername username s
    match r.1.2 with
    | some err => ⟨(none, some (.collab err)), r.2, [Call.FindByUsername username]⟩
    | none =>
      match r.1.1 with
      | none =>
        ⟨(none, some (.errorsNew "bad credentials")), r.2, [Call.FindByUsername username]⟩
      | some u =>
        -- compare password from request and the saved password
        let c := d.argon2id.ComparePasswordAndHash password u.Password r.2
        let calls := [Call.FindByUsername username, Call.ComparePasswordAndHash password u.Password]
        match c.1.2 with
        | some _ => ⟨(none, some (.errorsNew "error checking credentials")), c.2, calls⟩
        | none =>
          if !c.1.1 then
            ⟨(none, some (.errorsNew "bad credentials")), c.2, calls⟩
          else
            ⟨(some u, none), c.2, calls⟩

/-- The log-directory step of `service.CreateUser`: `os.MkdirAll` is called
with the request's `LogDir` when that is non-empty after trimming. -/
def createLogDir (d : Deps σ ε π) (user : CreateUserRequest) (s : σ) : Run (Option ε) σ π :=
  if TrimSpace user.LogDir ≠ "" then
    let m := d.MkdirAll user.LogDir ModePerm s
    ⟨m.1, m.2, [Call.MkdirAll user.LogDir ModePerm]⟩
  else
    ⟨none, s, []⟩

/-- The method `service.CreateUser`. -/
def CreateUser (d : Deps σ ε π) (user : CreateUserRequest) (s : σ) :
    Run (Option (GoError ε)) σ π :=
  if user.Username = "" ∨ user.Password = "" then
    ⟨some (.errorsNew "empty credentials supplied"), s, []⟩
  else
    let r := d.userSvc.GetUserCount s
    match r.1.2 with
    | some err => ⟨some (.collab err), r.2, [Call.GetUserCount]⟩
    | none =>
      if r.1.1 > 0 then
        ⟨some (.errorsNew "only 1 user account is supported at the moment"), r.2,
          [Call.GetUserCount]⟩
      else
        -- create log dir before inserting a user into the database
        let m := createLogDir d user r.2
        match m.ret with
        | some err =>
          ⟨some (.errorsNew ("failed to create log dir: " ++ d.errText err)), m.state,
            Call.GetUserCount :: m.calls⟩
        | none =>
          let h := d.argon2id.CreateHash user.Password d.argon2id.DefaultParams m.state
          let calls := Call.GetUserCount :: m.calls ++
            [Call.CreateHash user.Password d.argon2id.DefaultParams]
          match h.1.2 with
          | some _ => ⟨some (.errorsNew "failed to hash password"), h.2, calls⟩
          | none =>
            let newUser : User := { Username := user.Username, Password := h.1.1 }
            let c := d.userSvc.CreateUser newUser h.2
            match c.1 with
            | some _ =>
              ⟨some (.errorsNew "failed to create new user"), c.2, calls ++ [Call.CreateUser newUser]⟩
            | none => ⟨none, c.2, calls ++ [Call.CreateUser newUser]⟩

end Service

/-! ## An in-memory world -/

/-- World state of the in-memory model: the persisted users (oldest first)
and the directories created so far. -/
structure MemState where
  users : List User
  dirs : List String
  deriving DecidableEq, Repr

/-- The outcomes of the collaborator calls of one service operation in the
in-memory model: which store calls fail, and what the hasher and the
filesystem answer. -/
structure Outcomes (ε π : Type) where
  countErr : Option ε
  findErr : Option ε
  insertErr : Option ε
  compare : String → String → Bool × Option ε
  defaultParams : π
  hash : String → π → String × Option ε
  mkdirErr : String → Option ε
  errText : ε → String

/-- The in-memory store: the count is the number of inserted users, a lookup
returns the first user with the given name, an insertion appends the user,
and a failing call changes nothing. -/
def memStore {ε π : Type} (o : Outcomes ε π) : UserService MemState ε where
  GetUserCount := fun s =>
    match o.countErr with
    | some e => ((0, some e), s)
    | none => (((s.users.length : Int), none), s)
  FindByUsername := fun username s =>
    match o.findErr with
    | some e => ((none, some e), s)
    | none => ((s.users.find? (fun u => u.Username == username), none), s)
  CreateUser := fun u s =>
    match o.insertErr with
    | some e => (some e, s)
    | none => (none, { s with users := s.users ++ [u] })

/-- The collaborators of the in-memory model. -/
def memDeps {ε π : Type} (o : Outcomes ε π) : Deps MemState ε π where
  userSvc := memStore o
  argon2id :=
    { DefaultParams := o.defaultParams
      ComparePasswordAndHash := fun password hash s => (o.compare password hash, s)
      CreateHash := fun password params s => (o.hash password params, s) }
  MkdirAll := fun path _ s =>
    match o.mkdirErr path with
    | some e => (some e, s)
    | none => (none, { s with dirs := s.dirs ++ [path] })
  errText := o.errText

/-- One sequential call to the service, with the outcomes of its collaborator calls. -/
inductive Op (ε π : Type) where
  | getUserCount (o : Outcomes ε π)
  | login (username password : String) (o : Outcomes ε π)
  | createUser (req : CreateUserRequest) (o : Outcomes ε π)

/-- The world state after one service call. -/
def step {ε π : Type} (s : MemState) : Op ε π → MemState
  | .getUserCount o => (GetUserCount (memDeps o) s).state
  | .login username password o => (Login (memDeps o) username password s).state
  | .createUser req o => (CreateUser (memDeps o) req s).state

/-- The world state after a sequence of service calls, run one after the other. -/
def runOps {ε π : Type} (ops : List (Op ε π)) (s : MemState) : MemState :=
  ops.foldl step s

/-- The empty in-memory world. -/
def emptyMem : MemState := ⟨[], []⟩

/-- The users handed to the store's `CreateUser` in a list of calls, oldest first. -/
def inserted {π : Type} : List (Call π) → List User
  | [] => []
  | Call.CreateUser u :: cs => u :: inserted cs
  | _ :: cs => inserted cs

/-- The arguments of the `os.MkdirAll` calls in a list of calls, oldest first. -/
def mkdirCalls {π : Type} : List (Call π) → List (String × Nat)
  | [] => []
  | Call.MkdirAll path perm :: cs => (path, perm) :: mkdirCalls cs
  | _ :: cs => mkdirCalls cs

/-- The users of an in-memory world, as an observation of the world state. -/
def memUsers (s : MemState) : List User := s.users

/-- Outcomes in which every collaborator call succeeds: the hasher prefixes
the password with a marker and the comparison checks for that form. -/
def okOutcomes : Outcomes String Unit where
  countErr := none
  findErr := none
  insertErr := none
  compare := fun password hash => (hash == "$argon2id$" ++ password, none)
  defaultParams := ()
  hash := fun password _ => ("$argon2id$" ++ password, none)
  mkdirErr := fun _ => none
  errText := id

/-- Outcomes in which only the store insertion fails, with the error "database is locked". -/
def insertFails : Outcomes String Unit :=
  { okOutcomes with insertErr := some "database is locked" }

/-- Outcomes in which only the directory creation fails, with the error "permission denied". -/
def mkdirFails : Outcomes String Unit :=
  { okOutcomes with mkdirErr := fun _ => some "permission denied" }

/-- Outcomes in which the store's count and lookup fail, with the error "connection refused". -/
def storeDown : Outcomes String Unit :=
  { okOutcomes with countErr := some "connection refused", findErr := some "connection refused" }

/-- Outcomes in which only the comparison fails, with the error "invalid hash". -/
def compareFails : Outcomes String Unit :=
  { okOutcomes with compare := fun _ _ => (false, some "invalid hash") }

/-- Collaborators as in `memDeps okOutcomes`, except that the store answers
the count read with `-1` and no error, whatever it holds. -/
def negativeCountDeps : Deps MemState String Unit :=
  { memDeps okOutcomes with
    userSvc := { memStore okOutcomes with GetUserCount := fun s => ((-1, none), s) } }

/-! ## Theorems -/

section Theorems

variable {σ ε π : Type}

/-- C1: when the username or the password is empty, `Login` and `CreateUser`
both fail with the error "empty credentials supplied", leave the world state
untouched and make no collaborator call at all (no store, hasher or
directory-creation call). -/
theorem empty_credentials_rejected_without_calls (d : Deps σ ε π) (s : σ)
    (username password logDir : String) (h : username = "" ∨ password = "") :
    ((Login d username password s).ret = (none, some (.errorsNew "empty credentials supplied")) ∧
      (Login d username password s).calls = [] ∧
      (Login d username password s).state = s) ∧
    ((CreateUser d ⟨username, password, logDir⟩ s).ret
        = some (.errorsNew "empty credentials supplied") ∧
      (CreateUser d ⟨username, password, logDir⟩ s).calls = [] ∧
      (CreateUser d ⟨username, password, logDir⟩ s).state = s) := by
  simp [Login, CreateUser, h]

/-- Witness for C1: an empty password against the in-memory collaborators. -/
theorem empty_credentials_rejected_without_calls_witness :
    ((Login (memDeps okOutcomes) "admin" "" emptyMem).ret
        = (none, some (.errorsNew "empty credentials supplied")) ∧
      (Login (memDeps okOutcomes) "admin" "" emptyMem).calls = [] ∧
      (Login (memDeps okOutcomes) "admin" "" emptyMem).state = emptyMem) ∧
    ((CreateUser (memDeps okOutcomes) ⟨"admin", "", "/var/log"⟩ emptyMem).ret
        = some (.errorsNew "empty credentials supplied") ∧
      (CreateUser (memDeps okOutcomes) ⟨"admin", "", "/var/log"⟩ emptyMem).calls = [] ∧
      (CreateUser (memDeps okOutcomes) ⟨"admin", "", "/var/log"⟩ emptyMem).state = emptyMem) :=
  empty_credentials_rejected_without_calls (memDeps okOutcomes) emptyMem "admin" "" "/var/log"
    (Or.inr rfl)

/-- C2: for non-empty credentials, a lookup that finds no user and a lookup
that finds a user whose hash does not match make `Login` return the same
value, no user and the error "bad credentials", whatever the collaborators,
the world states, the usernames and the passwords of the two runs are. -/
theorem unknown_user_same_as_wrong_password (d₁ d₂ : Deps σ ε π) (s₁ s₂ : σ)
    (username₁ password₁ username₂ password₂ : String) (u : User)
    (hu₁ : username₁ ≠ "") (hp₁ : password₁ ≠ "") (hu₂ : username₂ ≠ "") (hp₂ : password₂ ≠ "")
    (habsent : (d₁.userSvc.FindByUsername username₁ s₁).1 = (none, none))
    (hfound : (d₂.userSvc.FindByUsername username₂ s₂).1 = (some u, none))
    (hmismatch : (d₂.argon2id.ComparePasswordAndHash password₂ u.Password
        (d₂.userSvc.FindByUsername username₂ s₂).2).1 = (false, none)) :
    (Login d₁ username₁ password₁ s₁).ret = (Login d₂ username₂ password₂ s₂).ret ∧
    (Login d₁ username₁ password₁ s₁).ret = (none, some (.errorsNew "bad credentials")) := by
  simp [Login, hu₁, hp₁, hu₂, hp₂, habsent, hfound, hmismatch]

/-- Witness for C2: an unknown user "bob" against a wrong password for "alice". -/
theorem unknown_user_same_as_wrong_password_witness :
    (Login (memDeps okOutcomes) "bob" "anything" ⟨[⟨"alice", "$argon2id$right"⟩], []⟩).ret
      = (Login (memDeps okOutcomes) "alice" "wrong" ⟨[⟨"alice", "$argon2id$right"⟩], []⟩).ret ∧
    (Login (memDeps okOutcomes) "bob" "anything" ⟨[⟨"alice", "$argon2id$right"⟩], []⟩).ret
      = (none, some (.errorsNew "bad credentials")) :=
  unknown_user_same_as_wrong_password (memDeps okOutcomes) (memDeps okOutcomes)
    ⟨[⟨"alice", "$argon2id$right"⟩], []⟩ ⟨[⟨"alice", "$argon2id$right"⟩], []⟩
    "bob" "anything" "alice" "wrong" ⟨"alice", "$argon2id$right"⟩
    (by decide) (by decide) (by decide) (by decide) (by decide) (by decide) (by decide)

/-- C3: `Login` returns without error exactly when both credentials are
non-empty, the lookup succeeds with some user and the comparison of the
supplied password with that user's stored password reports a match without
error; and `Login` returns the user `u` without error exactly when that
holds with `u` the user found, so the record comes back unchanged. -/
theorem login_succeeds_iff (d : Deps σ ε π) (s : σ) (username password : String) :
    ((Login d username password s).ret.2 = none ↔
      username ≠ "" ∧ password ≠ "" ∧
      ∃ u, (d.userSvc.FindByUsername username s).1 = (some u, none) ∧
        (d.argon2id.ComparePasswordAndHash password u.Password
          (d.userSvc.FindByUsername username s).2).1 = (true, none)) ∧
    (∀ u, (Login d username password s).ret = (some u, none) ↔
      username ≠ "" ∧ password ≠ "" ∧
      (d.userSvc.FindByUsername username s).1 = (some u, none) ∧
        (d.argon2id.ComparePasswordAndHash password u.Password
          (d.userSvc.FindByUsername username s).2).1 = (true, none)) := by
  by_cases hu : username = ""
  · simp [Login, hu]
  by_cases hp : password = ""
  · simp [Login, hp]
  rcases hf : d.userSvc.FindByUsername username s with ⟨⟨fu, fe⟩, s₁⟩
  cases fe with
  | some e => simp [Login, hu, hp, hf]
  | none =>
    cases fu with
    | none => simp [Login, hu, hp, hf]
    | some u =>
      rcases hc : d.argon2id.ComparePasswordAndHash password u.Password s₁ with ⟨⟨m, ce⟩, s₂⟩
      cases ce with
      | some e => simp [Login, hu, hp, hf, hc]
      | none =>
        cases m with
        | false => simp [Login, hu, hp, hf, hc]
        | true =>
          have hret : (Login d username password s).ret = (some u, none) := by
            simp [Login, hu, hp, hf, hc]
          rw [hret]
          refine ⟨⟨fun _ => ⟨hu, hp, u, rfl, by rw [hc]⟩, fun _ => rfl⟩, fun v => ⟨?_, ?_⟩⟩
          · intro h
            have hv : u = v := by simpa using h
            subst hv
            exact ⟨hu, hp, rfl, by rw [hc]⟩
          · rintro ⟨-, -, h, -⟩
            have hv : u = v := by simpa using h
            rw [hv]

/-- C4: for a request with non-empty username and password, when the count
is read without error and is greater than zero, `CreateUser` fails with the
error "only 1 user account is supported at the moment" and its only
collaborator call is the count read: no insertion, no directory creation and
no hashing, whatever the request's `LogDir` is. -/
theorem create_user_rejected_when_user_exists (d : Deps σ ε π) (s : σ)
    (user : CreateUserRequest) (n : Int)
    (hu : user.Username ≠ "") (hp : user.Password ≠ "")
    (hcount : (d.userSvc.GetUserCount s).1 = (n, none)) (hn : n > 0) :
    (CreateUser d user s).ret
      = some (.errorsNew "only 1 user account is supported at the moment") ∧
    (CreateUser d user s).calls = [Call.GetUserCount] ∧
    (CreateUser d user s).state = (d.userSvc.GetUserCount s).2 := by
  simp [CreateUser, hu, hp, hcount, hn]

/-- Witness for C4: a second account against a store that holds one user. -/
theorem create_user_rejected_when_user_exists_witness :
    (CreateUser (memDeps okOutcomes) ⟨"root", "pw", "/var/log"⟩ ⟨[⟨"admin", "h"⟩], []⟩).ret
      = some (.errorsNew "only 1 user account is supported at the moment") ∧
    (CreateUser (memDeps okOutcomes) ⟨"root", "pw", "/var/log"⟩ ⟨[⟨"admin", "h"⟩], []⟩).calls
      = [Call.GetUserCount] ∧
    (CreateUser (memDeps okOutcomes) ⟨"root", "pw", "/var/log"⟩ ⟨[⟨"admin", "h"⟩], []⟩).state
      = ((memDeps okOutcomes).userSvc.GetUserCount ⟨[⟨"admin", "h"⟩], []⟩).2 :=
  create_user_rejected_when_user_exists (memDeps okOutcomes) ⟨[⟨"admin", "h"⟩], []⟩
    ⟨"root", "pw", "/var/log"⟩ 1 (by decide) (by decide) (by decide) (by decide)

/-! ### The single-user policy and atomicity -/

/-- `inserted` over a concatenation of call lists. -/
theorem inserted_append (xs ys : List (Call π)) :
    inserted (xs ++ ys) = inserted xs ++ inserted ys := by
  induction xs with
  | nil => rfl
  | cons c cs ih => cases c <;> simp [inserted, ih]

/-- The log-directory step hands no user to the store. -/
theorem inserted_createLogDir (d : Deps σ ε π) (user : CreateUserRequest) (s : σ) :
    inserted (createLogDir d user s).calls = [] := by
  unfold createLogDir
  split <;> rfl

/-- In the in-memory world `Login` leaves the state as it found it. -/
theorem mem_login_state (o : Outcomes ε π) (username password : String) (s : MemState) :
    (Login (memDeps o) username password s).state = s := by
  unfold Login
  split
  · rfl
  · simp only [memDeps, memStore]
    cases o.findErr with
    | some e => rfl
    | none =>
      cases s.users.find? (fun u => u.Username == username) with
      | none => rfl
      | some u =>
        simp only
        cases (o.compare password u.Password).2 with
        | some e => rfl
        | none =>
          simp only
          split <;> rfl

/-- In the in-memory world the log-directory step leaves the users as they were. -/
theorem mem_createLogDir_users (o : Outcomes ε π) (req : CreateUserRequest) (s : MemState) :
    (createLogDir (memDeps o) req s).state.users = s.users := by
  unfold createLogDir
  split
  · simp only [memDeps]
    cases o.mkdirErr req.LogDir <;> rfl
  · rfl

/-- In the in-memory world the count read leaves the state as it found it. -/
theorem mem_count_state (o : Outcomes ε π) (s : MemState) :
    ((memDeps o).userSvc.GetUserCount s).2 = s := by
  simp only [memDeps, memStore]
  cases o.countErr <;> rfl

/-- In the in-memory world a count read without error is the number of users. -/
theorem mem_count_value (o : Outcomes ε π) (s : MemState)
    (h : ((memDeps o).userSvc.GetUserCount s).1.2 = none) :
    ((memDeps o).userSvc.GetUserCount s).1.1 = (s.users.length : Int) := by
  revert h
  simp only [memDeps, memStore]
  cases o.countErr <;> simp

/-- In the in-memory world `CreateUser` either leaves the users as they were
or turns an empty store into a store of one user. -/
theorem mem_createUser_users (o : Outcomes ε π) (req : CreateUserRequest) (s : MemState) :
    (CreateUser (memDeps o) req s).state.users = s.users ∨
    (s.users = [] ∧ ∃ u, (CreateUser (memDeps o) req s).state.users = [u]) := by
  unfold CreateUser
  split
  · exact Or.inl rfl
  · have hs := mem_count_state o s
    have hv := mem_count_value o s
    generalize (memDeps o).userSvc.GetUserCount s = r at hs hv ⊢
    obtain ⟨⟨n, ce⟩, s₁⟩ := r
    simp only at hs hv
    subst hs
    cases ce with
    | some e => exact Or.inl rfl
    | none =>
      have hn := hv rfl
      simp only
      split
      · exact Or.inl rfl
      · rename_i hpos
        have hnil : s₁.users = [] := by
          apply List.eq_nil_of_length_eq_zero
          omega
        have hm := mem_createLogDir_users o req s₁
        generalize createLogDir (memDeps o) req s₁ = m at hm ⊢
        obtain ⟨me, ms, mc⟩ := m
        simp only at hm
        cases me with
        | some e => exact Or.inl hm
        | none =>
          simp only
          cases hh : ((memDeps o).argon2id.CreateHash req.Password
              (memDeps o).argon2id.DefaultParams ms).1.2 with
          | some e => exact Or.inl hm
          | none =>
            simp only [memDeps, memStore]
            cases o.insertErr with
            | some e => exact Or.inl hm
            | none =>
              refine Or.inr ⟨hnil, ⟨req.Username, (o.hash req.Password o.defaultParams).1⟩, ?_⟩
              simp [hm, hnil]

/-- In the in-memory world every service call keeps the store at one user at most. -/
theorem step_users_le_one (s : MemState) (op : Op ε π) (h : s.users.length ≤ 1) :
    (step s op).users.length ≤ 1 := by
  cases op with
  | getUserCount o =>
    show ((memDeps o).userSvc.GetUserCount s).2.users.length ≤ 1
    rw [mem_count_state]; exact h
  | login username password o =>
    show (Login (memDeps o) username password s).state.users.length ≤ 1
    rw [mem_login_state]; exact h
  | createUser req o =>
    show (CreateUser (memDeps o) req s).state.users.length ≤ 1
    rcases mem_createUser_users o req s with h₁ | ⟨-, u, h₁⟩
    · rw [h₁]; exact h
    · rw [h₁]; simp

/-- C5: single-user invariant.  With the store as explicit state whose count
is the number of inserted users, any finite sequence of sequential calls to
`GetUserCount`, `Login` and `CreateUser`, with arbitrary arguments and
arbitrary outcomes of the hasher, the filesystem and the store calls, started
from the empty store, leaves at most one user in the store; and each single
call preserves "at most one user". -/
theorem single_user_invariant :
    (∀ ops : List (Op ε π), (runOps ops emptyMem).users.length ≤ 1) ∧
    (∀ (s : MemState) (op : Op ε π), s.users.length ≤ 1 → (step s op).users.length ≤ 1) := by
  have key : ∀ (ops : List (Op ε π)) (s : MemState),
      s.users.length ≤ 1 → (runOps ops s).users.length ≤ 1 := by
    intro ops
    induction ops with
    | nil => intro s h; exact h
    | cons op ops ih =>
      intro s h
      exact ih (step s op) (step_users_le_one s op h)
  exact ⟨fun ops => key ops emptyMem (by simp [emptyMem]), step_users_le_one⟩

/-- Witness for C5: a second `CreateUser` after a successful first one. -/
theorem single_user_invariant_witness :
    (runOps [Op.createUser ⟨"admin", "s3cret", ""⟩ okOutcomes,
        Op.createUser ⟨"root", "hunter2", ""⟩ okOutcomes] emptyMem).users.length ≤ 1 ∧
    (step ⟨[⟨"admin", "h"⟩], []⟩ (Op.createUser ⟨"root", "hunter2", ""⟩ okOutcomes)).users.length
      ≤ 1 :=
  ⟨single_user_invariant.1 _, single_user_invariant.2 _ _ (by decide)⟩

/-- C6: for a request with non-empty username and password, when the count
is read as 0 without error, the log-directory step (if attempted) succeeds,
hashing the request's password under the default parameters returns `hashed`
without error and the insertion succeeds, `CreateUser` returns no error, the
store was handed exactly one user, whose `Username` is the request's and whose
`Password` is `hashed`, the hasher's output, and the final world state is the
one that insertion left. -/
theorem create_user_inserts_hashed_user (d : Deps σ ε π) (s : σ) (user : CreateUserRequest)
    (hashed : String) (hu : user.Username ≠ "") (hp : user.Password ≠ "")
    (hcount : (d.userSvc.GetUserCount s).1 = (0, none))
    (hmkdir : (createLogDir d user (d.userSvc.GetUserCount s).2).ret = none)
    (hhash : (d.argon2id.CreateHash user.Password d.argon2id.DefaultParams
        (createLogDir d user (d.userSvc.GetUserCount s).2).state).1 = (hashed, none))
    (hinsert : (d.userSvc.CreateUser ⟨user.Username, hashed⟩
        (d.argon2id.CreateHash user.Password d.argon2id.DefaultParams
          (createLogDir d user (d.userSvc.GetUserCount s).2).state).2).1 = none) :
    (CreateUser d user s).ret = none ∧
    inserted (CreateUser d user s).calls = [⟨user.Username, hashed⟩] ∧
    (CreateUser d user s).state = (d.userSvc.CreateUser ⟨user.Username, hashed⟩
        (d.argon2id.CreateHash user.Password d.argon2id.DefaultParams
          (createLogDir d user (d.userSvc.GetUserCount s).2).state).2).2 := by
  simp [CreateUser, hu, hp, hcount, hmkdir, hhash, hinsert, inserted, inserted_append,
    inserted_createLogDir]

/-- Witness for C6: the request `admin` / `s3cret` against the empty in-memory store. -/
theorem create_user_inserts_hashed_user_witness :
    (CreateUser (memDeps okOutcomes) ⟨"admin", "s3cret", ""⟩ emptyMem).ret = none ∧
    inserted (CreateUser (memDeps okOutcomes) ⟨"admin", "s3cret", ""⟩ emptyMem).calls
      = [⟨"admin", "$argon2id$s3cret"⟩] ∧
    (CreateUser (memDeps okOutcomes) ⟨"admin", "s3cret", ""⟩ emptyMem).state
      = ⟨[⟨"admin", "$argon2id$s3cret"⟩], []⟩ :=
  create_user_inserts_hashed_user (memDeps okOutcomes) emptyMem ⟨"admin", "s3cret", ""⟩
    "$argon2id$s3cret" (by decide) (by decide) (by decide) (by decide) (by decide) (by decide)

/-- C7: atomicity of `CreateUser` with respect to the store.  Let `users`
observe the persisted users in the world state, and assume that the count
read, the directory creation and the hashing leave that observation alone and
that an insertion which fails persists nothing.  Then a `CreateUser` that
returns an error leaves the persisted users as they were, and the persisted
users change only on a run that returns success. -/
theorem create_user_failure_persists_nothing {α : Type} (d : Deps σ ε π) (users : σ → α)
    (user : CreateUserRequest) (s : σ)
    (hcount : ∀ t, users (d.userSvc.GetUserCount t).2 = users t)
    (hmkdir : ∀ path perm t, users (d.MkdirAll path perm t).2 = users t)
    (hhash : ∀ password params t, users (d.argon2id.CreateHash password params t).2 = users t)
    (hinsert : ∀ u t, (d.userSvc.CreateUser u t).1 ≠ none →
      users (d.userSvc.CreateUser u t).2 = users t) :
    ((CreateUser d user s).ret ≠ none → users (CreateUser d user s).state = users s) ∧
    (users (CreateUser d user s).state ≠ users s → (CreateUser d user s).ret = none) := by
  have hlog : ∀ t, users (createLogDir d user t).state = users t := by
    intro t
    unfold createLogDir
    split
    · exact hmkdir _ _ _
    · rfl
  have main : (CreateUser d user s).ret ≠ none →
      users (CreateUser d user s).state = users s := by
    unfold CreateUser
    split
    · intro _; rfl
    · simp only
      split
      · intro _; exact hcount s
      · split
        · intro _; exact hcount s
        · split
          · intro _; rw [hlog, hcount]
          · split
            · intro _; rw [hhash, hlog, hcount]
            · split
              · rename_i e he
                intro _
                rw [hinsert _ _ (by rw [he]; simp), hhash, hlog, hcount]
              · intro h; exact absurd rfl h
  refine ⟨main, fun h => ?_⟩
  by_contra hne
  exact h (main hne)

/-- Witness for C7: in the in-memory world, a `CreateUser` whose insertion
fails returns an error and leaves the users as they were, while the log
directory it created stays. -/
theorem create_user_failure_persists_nothing_witness :
    (CreateUser (memDeps insertFails) ⟨"admin", "s3cret", "/var/log"⟩ emptyMem).ret ≠ none ∧
    memUsers (CreateUser (memDeps insertFails) ⟨"admin", "s3cret", "/var/log"⟩ emptyMem).state
      = memUsers emptyMem ∧
    (CreateUser (memDeps insertFails) ⟨"admin", "s3cret", "/var/log"⟩ emptyMem).state.dirs
      = ["/var/log"] :=
  ⟨by decide,
    (create_user_failure_persists_nothing (memDeps insertFails) memUsers
      ⟨"admin", "s3cret", "/var/log"⟩ emptyMem
      (fun _ => rfl) (fun _ _ _ => rfl) (fun _ _ _ => rfl) (fun _ _ _ => rfl)).1 (by decide),
    by decide⟩

/-! ### Error kinds -/

/-- A string that starts with `a` differs from `b` as soon as `a` and `b`
differ within the first `n` characters of `a`. -/
theorem append_ne_of_take_ne (n : Nat) (a b x : String) (hn : n ≤ a.data.length)
    (hne : a.data.take n ≠ b.data.take n) : a ++ x ≠ b := by
  intro h
  apply hne
  have h₁ : (a ++ x).data.take n = b.data.take n := by rw [h]
  rw [String.data_append, List.take_append_of_le_length hn] at h₁
  exact h₁

/-- C8: for a request with non-empty username and password and a `LogDir`
that is non-empty after trimming, when the count is read as 0 without error
and the directory creation fails with `e`, `CreateUser` fails with the error
"failed to create log dir: " followed by the text of `e`; that error differs
from the empty-credentials, single-account, hashing and creation-failure
errors; and the only collaborator calls are the count read and the directory
creation, so neither hashing nor insertion is invoked. -/
theorem create_user_log_dir_failure (d : Deps σ ε π) (s : σ) (user : CreateUserRequest) (e : ε)
    (hu : user.Username ≠ "") (hp : user.Password ≠ "") (hdir : TrimSpace user.LogDir ≠ "")
    (hcount : (d.userSvc.GetUserCount s).1 = (0, none))
    (hmkdir : (d.MkdirAll user.LogDir ModePerm (d.userSvc.GetUserCount s).2).1 = some e) :
    (CreateUser d user s).ret
      = some (.errorsNew ("failed to create log dir: " ++ d.errText e)) ∧
    (CreateUser d user s).calls = [Call.GetUserCount, Call.MkdirAll user.LogDir ModePerm] ∧
    (CreateUser d user s).ret ≠ some (.errorsNew "empty credentials supplied") ∧
    (CreateUser d user s).ret
      ≠ some (.errorsNew "only 1 user account is supported at the moment") ∧
    (CreateUser d user s).ret ≠ some (.errorsNew "failed to hash password") ∧
    (CreateUser d user s).ret ≠ some (.errorsNew "failed to create new user") := by
  have hret : (CreateUser d user s).ret
      = some (.errorsNew ("failed to create log dir: " ++ d.errText e)) := by
    simp [CreateUser, createLogDir, hu, hp, hdir, hcount, hmkdir]
  have hcalls : (CreateUser d user s).calls
      = [Call.GetUserCount, Call.MkdirAll user.LogDir ModePerm] := by
    simp [CreateUser, createLogDir, hu, hp, hdir, hcount, hmkdir]
  refine ⟨hret, hcalls, ?_, ?_, ?_, ?_⟩ <;> rw [hret] <;> intro h <;>
    simp only [Option.some.injEq, GoError.errorsNew.injEq] at h
  · exact append_ne_of_take_ne 1 _ _ _ (by decide) (by decide) h
  · exact append_ne_of_take_ne 1 _ _ _ (by decide) (by decide) h
  · exact append_ne_of_take_ne 11 _ _ _ (by decide) (by decide) h
  · exact append_ne_of_take_ne 18 _ _ _ (by decide) (by decide) h

/-- Witness for C8: a log directory that cannot be created, in the in-memory world. -/
theorem create_user_log_dir_failure_witness :
    (CreateUser (memDeps mkdirFails) ⟨"admin", "s3cret", " /var/log "⟩ emptyMem).ret
      = some (.errorsNew ("failed to create log dir: " ++ "permission denied")) ∧
    (CreateUser (memDeps mkdirFails) ⟨"admin", "s3cret", " /var/log "⟩ emptyMem).calls
      = [Call.GetUserCount, Call.MkdirAll " /var/log " ModePerm] ∧
    (CreateUser (memDeps mkdirFails) ⟨"admin", "s3cret", " /var/log "⟩ emptyMem).ret
      ≠ some (.errorsNew "empty credentials supplied") ∧
    (CreateUser (memDeps mkdirFails) ⟨"admin", "s3cret", " /var/log "⟩ emptyMem).ret
      ≠ some (.errorsNew "only 1 user account is supported at the moment") ∧
    (CreateUser (memDeps mkdirFails) ⟨"admin", "s3cret", " /var/log "⟩ emptyMem).ret
      ≠ some (.errorsNew "failed to hash password") ∧
    (CreateUser (memDeps mkdirFails) ⟨"admin", "s3cret", " /var/log "⟩ emptyMem).ret
      ≠ some (.errorsNew "failed to create new user") :=
  create_user_log_dir_failure (memDeps mkdirFails) emptyMem ⟨"admin", "s3cret", " /var/log "⟩
    "permission denied" (by decide) (by decide) (by decide) (by decide) (by decide)

/-- C9, as stated, fails for the insertion: in the in-memory world the
store's `CreateUser` fails with the error "database is locked", yet the
service's `CreateUser` returns the error "failed to create new user", which
is neither that error value nor an error with that text. -/
theorem insert_error_not_propagated :
    ((memDeps insertFails).userSvc.CreateUser ⟨"admin", "$argon2id$s3cret"⟩ emptyMem).1
      = some "database is locked" ∧
    (CreateUser (memDeps insertFails) ⟨"admin", "s3cret", ""⟩ emptyMem).calls
      = [Call.GetUserCount, Call.CreateHash "s3cret" (),
          Call.CreateUser ⟨"admin", "$argon2id$s3cret"⟩] ∧
    (CreateUser (memDeps insertFails) ⟨"admin", "s3cret", ""⟩ emptyMem).ret
      = some (.errorsNew "failed to create new user") ∧
    (CreateUser (memDeps insertFails) ⟨"admin", "s3cret", ""⟩ emptyMem).ret
      ≠ some (.collab "database is locked") ∧
    (CreateUser (memDeps insertFails) ⟨"admin", "s3cret", ""⟩ emptyMem).ret.map
        (GoError.Error (memDeps insertFails).errText)
      ≠ some "database is locked" := by
  decide

/-- C9, amended: an error `e` of the store is returned as it is by
`GetUserCount` (count), by `Login` (lookup) and by `CreateUser` (count read);
when the insertion in `CreateUser` fails with `e`, `CreateUser` returns the
fixed error "failed to create new user" instead, whatever `e` is. -/
theorem store_errors_propagated_except_insert (d : Deps σ ε π) (s : σ)
    (username password : String) (user : CreateUserRequest) (e : ε) :
    ((d.userSvc.GetUserCount s).1.2 = some e →
      (GetUserCount d s).ret.2 = some (.collab e)) ∧
    (username ≠ "" → password ≠ "" → (d.userSvc.FindByUsername username s).1.2 = some e →
      (Login d username password s).ret = (none, some (.collab e))) ∧
    (user.Username ≠ "" → user.Password ≠ "" → (d.userSvc.GetUserCount s).1.2 = some e →
      (CreateUser d user s).ret = some (.collab e)) ∧
    (user.Username ≠ "" → user.Password ≠ "" →
      (d.userSvc.GetUserCount s).1.2 = none → ¬ (d.userSvc.GetUserCount s).1.1 > 0 →
      (createLogDir d user (d.userSvc.GetUserCount s).2).ret = none →
      (d.argon2id.CreateHash user.Password d.argon2id.DefaultParams
        (createLogDir d user (d.userSvc.GetUserCount s).2).state).1.2 = none →
      (d.userSvc.CreateUser
        ⟨user.Username, (d.argon2id.CreateHash user.Password d.argon2id.DefaultParams
          (createLogDir d user (d.userSvc.GetUserCount s).2).state).1.1⟩
        (d.argon2id.CreateHash user.Password d.argon2id.DefaultParams
          (createLogDir d user (d.userSvc.GetUserCount s).2).state).2).1 = some e →
      (CreateUser d user s).ret = some (.errorsNew "failed to create new user")) := by
  refine ⟨?_, ?_, ?_, ?_⟩
  · intro h
    simp [GetUserCount, h]
  · intro hu hp h
    simp [Login, hu, hp, h]
  · intro hu hp h
    simp [CreateUser, hu, hp, h]
  · intro hu hp hc hn hm hh hi
    simp [CreateUser, hu, hp, hc, hn, hm, hh, hi]

/-- Witness for C9, amended: a store whose count and lookup fail, and a store
whose insertion fails, in the in-memory world. -/
theorem store_errors_propagated_except_insert_witness :
    (GetUserCount (memDeps storeDown) emptyMem).ret.2 = some (.collab "connection refused") ∧
    (Login (memDeps storeDown) "admin" "s3cret" emptyMem).ret
      = (none, some (.collab "connection refused")) ∧
    (CreateUser (memDeps storeDown) ⟨"admin", "s3cret", ""⟩ emptyMem).ret
      = some (.collab "connection refused") ∧
    (CreateUser (memDeps insertFails) ⟨"admin", "s3cret", ""⟩ emptyMem).ret
      = some (.errorsNew "failed to create new user") :=
  ⟨(store_errors_propagated_except_insert (memDeps storeDown) emptyMem "admin" "s3cret"
      ⟨"admin", "s3cret", ""⟩ "connection refused").1 (by decide),
    (store_errors_propagated_except_insert (memDeps storeDown) emptyMem "admin" "s3cret"
      ⟨"admin", "s3cret", ""⟩ "connection refused").2.1 (by decide) (by decide) (by decide),
    (store_errors_propagated_except_insert (memDeps storeDown) emptyMem "admin" "s3cret"
      ⟨"admin", "s3cret", ""⟩ "connection refused").2.2.1 (by decide) (by decide) (by decide),
    (store_errors_propagated_except_insert (memDeps insertFails) emptyMem "admin" "s3cret"
      ⟨"admin", "s3cret", ""⟩ "database is locked").2.2.2 (by decide) (by decide) (by decide)
      (by decide) (by decide) (by decide) (by decide)⟩

/-- C10: for non-empty credentials, when the lookup returns a user and the
comparison itself fails with an error, `Login` returns no user and the error
"error checking credentials".  That value is a constant: it is the same for
every comparison error, every stored hash and every supplied password, so
none of them is carried by it; and it differs from the error "bad
credentials" of a clean no-match. -/
theorem login_hash_verification_error (d : Deps σ ε π) (s : σ) (username password : String)
    (u : User) (m : Bool) (e : ε) (hu : username ≠ "") (hp : password ≠ "")
    (hfound : (d.userSvc.FindByUsername username s).1 = (some u, none))
    (hcompare : (d.argon2id.ComparePasswordAndHash password u.Password
        (d.userSvc.FindByUsername username s).2).1 = (m, some e)) :
    (Login d username password s).ret
      = (none, some (.errorsNew "error checking credentials")) ∧
    (Login d username password s).ret.2 ≠ some (.errorsNew "bad credentials") ∧
    (Login d username password s).ret.2.map (GoError.Error d.errText)
      = some "error checking credentials" := by
  simp [Login, hu, hp, hfound, hcompare, GoError.Error]

/-- Witness for C10: a stored hash the comparison cannot parse, in the in-memory world. -/
theorem login_hash_verification_error_witness :
    (Login (memDeps compareFails) "alice" "pw" ⟨[⟨"alice", "garbage"⟩], []⟩).ret
      = (none, some (.errorsNew "error checking credentials")) ∧
    (Login (memDeps compareFails) "alice" "pw" ⟨[⟨"alice", "garbage"⟩], []⟩).ret.2
      ≠ some (.errorsNew "bad credentials") ∧
    (Login (memDeps compareFails) "alice" "pw" ⟨[⟨"alice", "garbage"⟩], []⟩).ret.2.map
        (GoError.Error (memDeps compareFails).errText)
      = some "error checking credentials" :=
  login_hash_verification_error (memDeps compareFails) ⟨[⟨"alice", "garbage"⟩], []⟩
    "alice" "pw" ⟨"alice", "garbage"⟩ false "invalid hash"
    (by decide) (by decide) (by decide) (by decide)

/-! ### The order of the collaborator calls -/

/-- The log-directory step either calls `os.MkdirAll` once, with the request's
`LogDir` and `ModePerm`, and answers what that call answers, or, when the
trimmed `LogDir` is empty, calls nothing and leaves the state alone. -/
theorem createLogDir_cases (d : Deps σ ε π) (user : CreateUserRequest) (s : σ) :
    (TrimSpace user.LogDir ≠ "" ∧
      createLogDir d user s = ⟨(d.MkdirAll user.LogDir ModePerm s).1,
        (d.MkdirAll user.LogDir ModePerm s).2, [Call.MkdirAll user.LogDir ModePerm]⟩) ∨
    (TrimSpace user.LogDir = "" ∧ createLogDir d user s = ⟨none, s, []⟩) := by
  by_cases h : TrimSpace user.LogDir = ""
  · exact Or.inr ⟨h, by simp [createLogDir, h]⟩
  · exact Or.inl ⟨h, by simp [createLogDir, h]⟩

/-- The five ways a `CreateUser` run can end, each with the calls it made and
the outcomes that led there; `r`, `m` and `h` name what the count read, the
log-directory step and the hashing answer in that run. -/
theorem createUser_calls_cases (d : Deps σ ε π) (user : CreateUserRequest) (s : σ)
    (r : (Int × Option ε) × σ) (m : Run (Option ε) σ π) (h : (String × Option ε) × σ)
    (hr : d.userSvc.GetUserCount s = r) (hm : createLogDir d user r.2 = m)
    (hh : d.argon2id.CreateHash user.Password d.argon2id.DefaultParams m.state = h) :
    ((user.Username = "" ∨ user.Password = "") ∧ (CreateUser d user s).calls = []) ∨
    ((user.Username ≠ "" ∧ user.Password ≠ "") ∧ (r.1.2 ≠ none ∨ r.1.1 > 0) ∧
      (CreateUser d user s).calls = [Call.GetUserCount]) ∨
    ((user.Username ≠ "" ∧ user.Password ≠ "") ∧ (r.1.2 = none ∧ ¬ r.1.1 > 0) ∧
      m.ret ≠ none ∧ (CreateUser d user s).calls = Call.GetUserCount :: m.calls) ∨
    ((user.Username ≠ "" ∧ user.Password ≠ "") ∧ (r.1.2 = none ∧ ¬ r.1.1 > 0) ∧
      m.ret = none ∧ h.1.2 ≠ none ∧
      (CreateUser d user s).calls = Call.GetUserCount :: m.calls
        ++ [Call.CreateHash user.Password d.argon2id.DefaultParams]) ∨
    ((user.Username ≠ "" ∧ user.Password ≠ "") ∧ (r.1.2 = none ∧ ¬ r.1.1 > 0) ∧
      m.ret = none ∧ h.1.2 = none ∧
      (CreateUser d user s).calls = Call.GetUserCount :: m.calls
        ++ [Call.CreateHash user.Password d.argon2id.DefaultParams,
            Call.CreateUser ⟨user.Username, h.1.1⟩]) := by
  subst hr hm hh
  by_cases hup : user.Username = "" ∨ user.Password = ""
  · exact Or.inl ⟨hup, by simp [CreateUser, hup]⟩
  · have hne : user.Username ≠ "" ∧ user.Password ≠ "" := by simpa [not_or] using hup
    right
    cases hc : (d.userSvc.GetUserCount s).1.2 with
    | some e => exact Or.inl ⟨hne, Or.inl (by simp), by simp [CreateUser, hup, hc]⟩
    | none =>
      by_cases hn : (d.userSvc.GetUserCount s).1.1 > 0
      · exact Or.inl ⟨hne, Or.inr hn, by simp [CreateUser, hup, hc, hn]⟩
      · right
        cases hm : (createLogDir d user (d.userSvc.GetUserCount s).2).ret with
        | some e =>
          exact Or.inl ⟨hne, ⟨rfl, hn⟩, by simp, by simp [CreateUser, hup, hc, hn, hm]⟩
        | none =>
          right
          cases hh : (d.argon2id.CreateHash user.Password d.argon2id.DefaultParams
              (createLogDir d user (d.userSvc.GetUserCount s).2).state).1.2 with
          | some e =>
            exact Or.inl ⟨hne, ⟨rfl, hn⟩, rfl, by simp,
              by simp [CreateUser, hup, hc, hn, hm, hh]⟩
          | none =>
            refine Or.inr ⟨hne, ⟨rfl, hn⟩, rfl, rfl, ?_⟩
            simp only [CreateUser, hup, hc, hn, hm, hh, if_false]
            cases (d.userSvc.CreateUser _ _).1 <;> simp

/-- The call lists a `CreateUser` run can produce, written out: `hashed` is
what the hashing of that run returned. -/
theorem createUser_calls_mem (d : Deps σ ε π) (user : CreateUserRequest) (s : σ) :
    ∃ hashed : String, (CreateUser d user s).calls ∈
      [[], [Call.GetUserCount],
        [Call.GetUserCount, Call.MkdirAll user.LogDir ModePerm],
        [Call.GetUserCount, Call.CreateHash user.Password d.argon2id.DefaultParams],
        [Call.GetUserCount, Call.MkdirAll user.LogDir ModePerm,
          Call.CreateHash user.Password d.argon2id.DefaultParams],
        [Call.GetUserCount, Call.CreateHash user.Password d.argon2id.DefaultParams,
          Call.CreateUser ⟨user.Username, hashed⟩],
        [Call.GetUserCount, Call.MkdirAll user.LogDir ModePerm,
          Call.CreateHash user.Password d.argon2id.DefaultParams,
          Call.CreateUser ⟨user.Username, hashed⟩]] := by
  refine ⟨(d.argon2id.CreateHash user.Password d.argon2id.DefaultParams
    (createLogDir d user (d.userSvc.GetUserCount s).2).state).1.1, ?_⟩
  rcases createLogDir_cases d user (d.userSvc.GetUserCount s).2 with ⟨-, hm⟩ | ⟨-, hm⟩ <;>
  rcases createUser_calls_cases d user s _ _ _ rfl rfl rfl with
    ⟨-, hc⟩ | ⟨-, -, hc⟩ | ⟨-, -, -, hc⟩ | ⟨-, -, -, -, hc⟩ | ⟨-, -, -, -, hc⟩ <;>
  simp [hc, hm]

/-! ### The log directory -/

/-- Dropping a leading run of `p` leaves only `p` elements exactly when the
whole list consists of `p` elements. -/
theorem all_dropWhile_iff {α : Type} (p : α → Bool) (l : List α) :
    (∀ x ∈ l.dropWhile p, p x = true) ↔ ∀ x ∈ l, p x = true := by
  induction l with
  | nil => simp
  | cons a l ih => by_cases h : p a = true <;> simp [List.dropWhile_cons, h, ih]

/-- `TrimSpace` returns the empty string exactly on the strings that are
empty or consist of white space only. -/
theorem trimSpace_eq_empty_iff (s : String) :
    TrimSpace s = "" ↔ ∀ c ∈ s.data, isSpace c = true := by
  unfold TrimSpace
  rw [String.ext_iff]
  show ((s.data.dropWhile isSpace).reverse.dropWhile isSpace).reverse = [] ↔ _
  rw [List.reverse_eq_nil_iff, List.dropWhile_eq_nil_iff]
  simp only [List.mem_reverse]
  exact all_dropWhile_iff isSpace s.data

/-- With a blank `LogDir` the log-directory step does nothing. -/
theorem createLogDir_blank (d : Deps σ ε π) (user : CreateUserRequest) (s : σ)
    (h : TrimSpace user.LogDir = "") : createLogDir d user s = ⟨none, s, []⟩ := by
  simp [createLogDir, h]

/-- C11: for a request whose `LogDir` is empty or consists of white space
only, `CreateUser` makes no `os.MkdirAll` call and its whole outcome (return
value, world state and calls) is that of the same request with `LogDir = ""`;
and for a request with non-empty username and password whose `LogDir` is
non-empty after trimming, against a count read as 0 without error,
`os.MkdirAll` is called exactly once (whether it then succeeds or fails). -/
theorem log_dir_step_skipped_iff_blank (d : Deps σ ε π) (user : CreateUserRequest) (s : σ) :
    ((∀ c ∈ user.LogDir.data, isSpace c = true) →
      mkdirCalls (CreateUser d user s).calls = [] ∧
      CreateUser d user s = CreateUser d { user with LogDir := "" } s) ∧
    (user.Username ≠ "" → user.Password ≠ "" →
      (d.userSvc.GetUserCount s).1 = (0, none) → TrimSpace user.LogDir ≠ "" →
      mkdirCalls (CreateUser d user s).calls = [(user.LogDir, ModePerm)]) := by
  constructor
  · intro hblank
    have ht : TrimSpace user.LogDir = "" := (trimSpace_eq_empty_iff _).2 hblank
    have hm : ∀ t, createLogDir d user t = ⟨none, t, []⟩ :=
      fun t => createLogDir_blank d user t ht
    have hm₀ : ∀ t, createLogDir d { user with LogDir := "" } t = ⟨none, t, []⟩ :=
      fun t => createLogDir_blank d _ t (by show TrimSpace "" = ""; decide)
    constructor
    · rcases createUser_calls_cases d user s _ _ _ rfl rfl rfl with
        ⟨-, hc⟩ | ⟨-, -, hc⟩ | ⟨-, -, -, hc⟩ | ⟨-, -, -, -, hc⟩ | ⟨-, -, -, -, hc⟩ <;>
      simp [hc, hm, mkdirCalls]
    · simp only [CreateUser, hm, hm₀]
  · intro hu hp hcount hdir
    have hm : (createLogDir d user (d.userSvc.GetUserCount s).2).calls
        = [Call.MkdirAll user.LogDir ModePerm] := by
      simp [createLogDir, hdir]
    rcases createUser_calls_cases d user s _ _ _ rfl rfl rfl with
      ⟨hc, -⟩ | ⟨-, hc, -⟩ | ⟨-, -, -, hc⟩ | ⟨-, -, -, -, hc⟩ | ⟨-, -, -, -, hc⟩
    · simp [hu, hp] at hc
    · simp [hcount] at hc
    · simp [hc, hm, mkdirCalls]
    · simp [hc, hm, mkdirCalls]
    · simp [hc, hm, mkdirCalls]

/-- Witness for C11: a `LogDir` of blanks and tabs, and a `LogDir` with a path in it. -/
theorem log_dir_step_skipped_iff_blank_witness :
    (mkdirCalls (CreateUser (memDeps okOutcomes) ⟨"admin", "s3cret", " \t "⟩ emptyMem).calls = [] ∧
      CreateUser (memDeps okOutcomes) ⟨"admin", "s3cret", " \t "⟩ emptyMem
        = CreateUser (memDeps okOutcomes) ⟨"admin", "s3cret", ""⟩ emptyMem) ∧
    mkdirCalls (CreateUser (memDeps mkdirFails) ⟨"admin", "s3cret", " /var/log "⟩ emptyMem).calls
      = [(" /var/log ", ModePerm)] :=
  ⟨(log_dir_step_skipped_iff_blank (memDeps okOutcomes) ⟨"admin", "s3cret", " \t "⟩ emptyMem).1
      (by decide),
    (log_dir_step_skipped_iff_blank (memDeps mkdirFails) ⟨"admin", "s3cret", " /var/log "⟩
      emptyMem).2 (by decide) (by decide) (by decide) (by decide)⟩

/-- C12: `Login` has no side effects.  Its calls are nothing at all, or one
`FindByUsername`, or one `FindByUsername` followed by one
`ComparePasswordAndHash`; so it never inserts a user, never reads the count,
never creates a hash and never creates a directory.  And for any observation
`users` of the store that the lookup and the comparison leave alone, the
store after `Login` is the store before it. -/
theorem login_has_no_side_effects {α : Type} (d : Deps σ ε π) (users : σ → α)
    (username password : String) (s : σ)
    (hfind : ∀ name t, users (d.userSvc.FindByUsername name t).2 = users t)
    (hcompare : ∀ pw hash t, users (d.argon2id.ComparePasswordAndHash pw hash t).2 = users t) :
    users (Login d username password s).state = users s ∧
    ((Login d username password s).calls = [] ∨
      (Login d username password s).calls = [Call.FindByUsername username] ∨
      ∃ hash, (Login d username password s).calls
        = [Call.FindByUsername username, Call.ComparePasswordAndHash password hash]) ∧
    inserted (Login d username password s).calls = [] ∧
    mkdirCalls (Login d username password s).calls = [] ∧
    Call.GetUserCount ∉ (Login d username password s).calls ∧
    (∀ pw params, Call.CreateHash pw params ∉ (Login d username password s).calls) := by
  unfold Login
  split
  · simp [inserted, mkdirCalls]
  · simp only
    split
    · simp [inserted, mkdirCalls, hfind]
    · split
      · simp [inserted, mkdirCalls, hfind]
      · split
        · simp [inserted, mkdirCalls, hfind, hcompare]
        · split <;> simp [inserted, mkdirCalls, hfind, hcompare]

/-- Witness for C12: a successful `Login` in the in-memory world leaves the
users (and the whole state) as they were. -/
theorem login_has_no_side_effects_witness :
    memUsers (Login (memDeps okOutcomes) "alice" "right" ⟨[⟨"alice", "$argon2id$right"⟩], []⟩).state
      = memUsers ⟨[⟨"alice", "$argon2id$right"⟩], []⟩ ∧
    (Login (memDeps okOutcomes) "alice" "right" ⟨[⟨"alice", "$argon2id$right"⟩], []⟩).calls
      = [Call.FindByUsername "alice", Call.ComparePasswordAndHash "right" "$argon2id$right"] ∧
    (Login (memDeps okOutcomes) "alice" "right" ⟨[⟨"alice", "$argon2id$right"⟩], []⟩).state
      = ⟨[⟨"alice", "$argon2id$right"⟩], []⟩ :=
  ⟨(login_has_no_side_effects (memDeps okOutcomes) memUsers "alice" "right"
      ⟨[⟨"alice", "$argon2id$right"⟩], []⟩ (fun _ _ => rfl) (fun _ _ _ => rfl)).1,
    by decide, by decide⟩

/-- C13, as stated, fails: in this run of `CreateUser` the directory creation
is attempted, and the count read, an operation of the user store, is invoked
before it. -/
theorem count_read_precedes_mkdir :
    ∃ pre post : List (Call Unit),
      (CreateUser (memDeps okOutcomes) ⟨"admin", "s3cret", "/var/log"⟩ emptyMem).calls
        = pre ++ Call.MkdirAll "/var/log" ModePerm :: post ∧
      Call.GetUserCount ∈ pre :=
  ⟨[Call.GetUserCount],
    [Call.CreateHash "s3cret" (), Call.CreateUser ⟨"admin", "$argon2id$s3cret"⟩],
    by decide, by decide⟩

/-- C13, amended: in every run of `CreateUser` in which directory creation is
attempted, the calls made before the directory creation call are exactly the
one count read; so the store insertion is never invoked before the directory
creation, while the count read always is. -/
theorem only_count_read_precedes_mkdir (d : Deps σ ε π) (user : CreateUserRequest) (s : σ)
    (pre post : List (Call π)) (path : String) (perm : Nat)
    (hsplit : (CreateUser d user s).calls = pre ++ Call.MkdirAll path perm :: post) :
    pre = [Call.GetUserCount] ∧ inserted pre = [] ∧ mkdirCalls pre = [] ∧
    mkdirCalls post = [] := by
  obtain ⟨hashed, hmem⟩ := createUser_calls_mem d user s
  simp only [List.mem_cons, List.mem_singleton, List.not_mem_nil, or_false] at hmem
  rcases hmem with h | h | h | h | h | h | h <;> rw [h] at hsplit <;>
    simp [List.cons_eq_append_iff] at hsplit
  all_goals
    obtain ⟨a, h₁, h₂, -, h₃⟩ := hsplit
    subst h₂
    subst h₁
    simp [h₃, inserted, mkdirCalls]

/-- Witness for C13, amended: the successful run with a log directory in the
in-memory world, split at its directory creation call. -/
theorem only_count_read_precedes_mkdir_witness :
    (CreateUser (memDeps okOutcomes) ⟨"admin", "s3cret", "/var/log"⟩ emptyMem).calls
      = [Call.GetUserCount] ++ Call.MkdirAll "/var/log" ModePerm ::
          [Call.CreateHash "s3cret" (), Call.CreateUser ⟨"admin", "$argon2id$s3cret"⟩] ∧
    ([Call.GetUserCount] = [(Call.GetUserCount : Call Unit)] ∧
      inserted [(Call.GetUserCount : Call Unit)] = [] ∧
      mkdirCalls [(Call.GetUserCount : Call Unit)] = [] ∧
      mkdirCalls [Call.CreateHash "s3cret" (), Call.CreateUser ⟨"admin", "$argon2id$s3cret"⟩]
        = []) :=
  ⟨by decide,
    only_count_read_precedes_mkdir (memDeps okOutcomes) ⟨"admin", "s3cret", "/var/log"⟩ emptyMem
      [Call.GetUserCount]
      [Call.CreateHash "s3cret" (), Call.CreateUser ⟨"admin", "$argon2id$s3cret"⟩]
      "/var/log" ModePerm (by decide)⟩

/-- In the in-memory world a `CreateUser` that returns no error has appended
one user to the store: the request's username with the hash of that run. -/
theorem mem_createUser_success (o : Outcomes ε π) (req : CreateUserRequest) (s : MemState)
    (hok : (CreateUser (memDeps o) req s).ret = none) :
    (CreateUser (memDeps o) req s).state.users
      = s.users ++ [⟨req.Username, (o.hash req.Password o.defaultParams).1⟩] := by
  revert hok
  unfold CreateUser
  split
  · simp
  · have hs := mem_count_state o s
    generalize (memDeps o).userSvc.GetUserCount s = r at hs ⊢
    obtain ⟨⟨n, ce⟩, s₁⟩ := r
    simp only at hs
    subst hs
    cases ce with
    | some e => simp
    | none =>
      simp only
      split
      · simp
      · have hm := mem_createLogDir_users o req s₁
        generalize createLogDir (memDeps o) req s₁ = m at hm ⊢
        obtain ⟨me, ms, mc⟩ := m
        simp only at hm
        cases me with
        | some e => simp
        | none =>
          simp only [memDeps, memStore]
          cases (o.hash req.Password o.defaultParams).2 with
          | some e => simp
          | none =>
            cases o.insertErr with
            | some e => simp
            | none => simp [hm]

/-- The comparison of `okOutcomes` reports no match for a password other than
the one that was hashed. -/
theorem okOutcomes_no_match (p p₂ : String) (h : p₂ ≠ p) :
    okOutcomes.compare p₂ (okOutcomes.hash p ()).1 = (false, none) := by
  show (("$argon2id$" ++ p) == ("$argon2id$" ++ p₂), (none : Option String)) = (false, none)
  have hne : "$argon2id$" ++ p ≠ "$argon2id$" ++ p₂ := by
    intro heq
    apply h
    have hdata := congrArg String.data heq
    simp only [String.data_append] at hdata
    exact (String.ext (List.append_cancel_left hdata)).symm
  simp [hne]

/-- C14: create-then-login round trip in the in-memory world.  Starting from
the empty store, let `CreateUser` succeed on a request with non-empty
username and password (outcomes `o₁`), and let the later `Login` run with a
lookup that does not fail and a comparison that reports a match for the
request's password against the hash `CreateUser` obtained (outcomes `o₂`).
Then `Login` with the request's username and password returns, without
error, the user made of the request's username and that hash, which is the
one user in the store; and if the comparison reports no match for every
other password, `Login` with any other non-empty password fails with the
error "bad credentials". -/
theorem create_then_login_round_trip (o₁ o₂ : Outcomes ε π) (req : CreateUserRequest)
    (hu : req.Username ≠ "") (hp : req.Password ≠ "")
    (hcreate : (CreateUser (memDeps o₁) req emptyMem).ret = none)
    (hfind : o₂.findErr = none)
    (hmatch : o₂.compare req.Password (o₁.hash req.Password o₁.defaultParams).1
      = (true, none)) :
    (CreateUser (memDeps o₁) req emptyMem).state.users
      = [⟨req.Username, (o₁.hash req.Password o₁.defaultParams).1⟩] ∧
    (Login (memDeps o₂) req.Username req.Password
        (CreateUser (memDeps o₁) req emptyMem).state).ret
      = (some ⟨req.Username, (o₁.hash req.Password o₁.defaultParams).1⟩, none) ∧
    ((∀ p₂, p₂ ≠ req.Password →
        o₂.compare p₂ (o₁.hash req.Password o₁.defaultParams).1 = (false, none)) →
      ∀ p₂, p₂ ≠ "" → p₂ ≠ req.Password →
        (Login (memDeps o₂) req.Username p₂ (CreateUser (memDeps o₁) req emptyMem).state).ret
          = (none, some (.errorsNew "bad credentials"))) := by
  have husers : (CreateUser (memDeps o₁) req emptyMem).state.users
      = [⟨req.Username, (o₁.hash req.Password o₁.defaultParams).1⟩] := by
    rw [mem_createUser_success o₁ req emptyMem hcreate]
    rfl
  generalize (CreateUser (memDeps o₁) req emptyMem).state = st at husers ⊢
  refine ⟨husers, ?_, ?_⟩
  · simp [Login, memDeps, memStore, hu, hp, hfind, husers, hmatch]
  · intro hno p₂ hne hdiff
    simp [Login, memDeps, memStore, hu, hne, hfind, husers, hno p₂ hdiff]

/-- Witness for C14: `admin` / `s3cret` created and then logged in, in the in-memory world. -/
theorem create_then_login_round_trip_witness :
    (CreateUser (memDeps okOutcomes) ⟨"admin", "s3cret", ""⟩ emptyMem).state.users
      = [⟨"admin", "$argon2id$s3cret"⟩] ∧
    (Login (memDeps okOutcomes) "admin" "s3cret"
        (CreateUser (memDeps okOutcomes) ⟨"admin", "s3cret", ""⟩ emptyMem).state).ret
      = (some ⟨"admin", "$argon2id$s3cret"⟩, none) ∧
    (Login (memDeps okOutcomes) "admin" "hunter2"
        (CreateUser (memDeps okOutcomes) ⟨"admin", "s3cret", ""⟩ emptyMem).state).ret
      = (none, some (.errorsNew "bad credentials")) :=
  ⟨(create_then_login_round_trip okOutcomes okOutcomes ⟨"admin", "s3cret", ""⟩
      (by decide) (by decide) (by decide) (by decide) (by decide)).1,
    (create_then_login_round_trip okOutcomes okOutcomes ⟨"admin", "s3cret", ""⟩
      (by decide) (by decide) (by decide) (by decide) (by decide)).2.1,
    (create_then_login_round_trip okOutcomes okOutcomes ⟨"admin", "s3cret", ""⟩
      (by decide) (by decide) (by decide) (by decide) (by decide)).2.2
      (fun p₂ hne => okOutcomes_no_match "s3cret" p₂ hne) "hunter2" (by decide) (by decide)⟩

/-- C15, as stated, fails on "the count was 0": against a store that answers
the count read with `-1` and no error, `CreateUser` goes on to hash the
password and to insert the user, and returns no error. -/
theorem insertion_after_negative_count :
    (negativeCountDeps.userSvc.GetUserCount emptyMem).1 = (-1, none) ∧
    (negativeCountDeps.userSvc.GetUserCount emptyMem).1.1 ≠ 0 ∧
    (CreateUser negativeCountDeps ⟨"admin", "s3cret", ""⟩ emptyMem).calls
      = [Call.GetUserCount, Call.CreateHash "s3cret" (),
          Call.CreateUser ⟨"admin", "$argon2id$s3cret"⟩] ∧
    (CreateUser negativeCountDeps ⟨"admin", "s3cret", ""⟩ emptyMem).ret = none := by
  decide

/-- C15, amended: the calls of one `CreateUser` run are a prefix of the count
read, the directory creation (present only when the trimmed `LogDir` is
non-empty), the hashing of the request's password under the default
parameters and the insertion of the user made of the request's username and
that hash.  A directory creation is made only after a count read without
error whose count is not greater than zero; a hashing only if, moreover, the
directory creation, when due, succeeded; an insertion only if, moreover, the
hashing succeeded; and at most one insertion is made.  Here `r` and `h` name
what the count read and the hashing answer in that run. -/
theorem create_user_call_sequence (d : Deps σ ε π) (user : CreateUserRequest) (s : σ)
    (r : (Int × Option ε) × σ) (h : (String × Option ε) × σ)
    (hr : d.userSvc.GetUserCount s = r)
    (hh : d.argon2id.CreateHash user.Password d.argon2id.DefaultParams
      (createLogDir d user r.2).state = h) :
    (CreateUser d user s).calls <+:
      Call.GetUserCount ::
        (if TrimSpace user.LogDir ≠ "" then [Call.MkdirAll user.LogDir ModePerm] else []) ++
        [Call.CreateHash user.Password d.argon2id.DefaultParams,
          Call.CreateUser ⟨user.Username, h.1.1⟩] ∧
    (∀ path perm, Call.MkdirAll path perm ∈ (CreateUser d user s).calls →
      r.1.2 = none ∧ r.1.1 ≤ 0) ∧
    (∀ pw params, Call.CreateHash pw params ∈ (CreateUser d user s).calls →
      r.1.2 = none ∧ r.1.1 ≤ 0 ∧
      (TrimSpace user.LogDir ≠ "" → (d.MkdirAll user.LogDir ModePerm r.2).1 = none)) ∧
    (∀ u, Call.CreateUser u ∈ (CreateUser d user s).calls →
      r.1.2 = none ∧ r.1.1 ≤ 0 ∧
      (TrimSpace user.LogDir ≠ "" → (d.MkdirAll user.LogDir ModePerm r.2).1 = none) ∧
      h.1.2 = none ∧ u = ⟨user.Username, h.1.1⟩) ∧
    (inserted (CreateUser d user s).calls).length ≤ 1 := by
  subst hr hh
  have hzero : ∀ n : Int, ¬ n > 0 → n ≤ 0 := by
    intro n hn
    omega
  rcases createLogDir_cases d user (d.userSvc.GetUserCount s).2 with ⟨ht, hm⟩ | ⟨ht, hm⟩ <;>
  rcases createUser_calls_cases d user s _ _ _ rfl rfl rfl with
    ⟨-, hc⟩ | ⟨-, -, hc⟩ | ⟨-, ⟨h₁, h₂⟩, h₃, hc⟩ | ⟨-, ⟨h₁, h₂⟩, h₃, h₄, hc⟩ |
    ⟨-, ⟨h₁, h₂⟩, h₃, h₄, hc⟩
  all_goals first
    | (simp [hc, hm, ht, inserted]; done)
    | (have hz := hzero _ h₂
       simp only [hm] at hc h₃ h₄
       simp [hc, hm, ht, inserted, h₁, hz, h₃, h₄])
    | (have hz := hzero _ h₂
       simp only [hm] at hc h₃
       simp [hc, hm, ht, inserted, h₁, hz, h₃])

/-- Witness for C15, amended: the successful run with a log directory in the
in-memory world makes the whole sequence; its insertion comes after a count
read that is not greater than zero, a directory creation and a hashing that
all succeeded. -/
theorem create_user_call_sequence_witness :
    (CreateUser (memDeps okOutcomes) ⟨"admin", "s3cret", " /var/log "⟩ emptyMem).calls <+:
      [Call.GetUserCount, Call.MkdirAll " /var/log " ModePerm, Call.CreateHash "s3cret" (),
        Call.CreateUser ⟨"admin", "$argon2id$s3cret"⟩] ∧
    ((memDeps okOutcomes).userSvc.GetUserCount emptyMem).1.1 ≤ 0 ∧
    ((memDeps okOutcomes).MkdirAll " /var/log " ModePerm emptyMem).1 = none ∧
    (inserted
      (CreateUser (memDeps okOutcomes) ⟨"admin", "s3cret", " /var/log "⟩ emptyMem).calls).length
      ≤ 1 :=
  ⟨(create_user_call_sequence (memDeps okOutcomes) ⟨"admin", "s3cret", " /var/log "⟩ emptyMem
      _ _ rfl rfl).1,
    ((create_user_call_sequence (memDeps okOutcomes) ⟨"admin", "s3cret", " /var/log "⟩ emptyMem
      _ _ rfl rfl).2.2.2.1 ⟨"admin", "$argon2id$s3cret"⟩ (by decide)).2.1,
    ((create_user_call_sequence (memDeps okOutcomes) ⟨"admin", "s3cret", " /var/log "⟩ emptyMem
      _ _ rfl rfl).2.2.2.1 ⟨"admin", "$argon2id$s3cret"⟩ (by decide)).2.2.1 (by decide),
    (create_user_call_sequence (memDeps okOutcomes) ⟨"admin", "s3cret", " /var/log "⟩ emptyMem
      _ _ rfl rfl).2.2.2.2⟩

/-- C16: every `os.MkdirAll` call of a `CreateUser` run is made with the
request's `LogDir` exactly as supplied (and with `ModePerm`); so when trimming
would change the `LogDir`, the path created is not the trimmed one. -/
theorem mkdir_path_is_untrimmed_log_dir (d : Deps σ ε π) (user : CreateUserRequest) (s : σ)
    (path : String) (perm : Nat)
    (hcall : Call.MkdirAll path perm ∈ (CreateUser d user s).calls) :
    path = user.LogDir ∧ perm = ModePerm ∧
    (TrimSpace user.LogDir ≠ user.LogDir → path ≠ TrimSpace user.LogDir) := by
  have hpath : path = user.LogDir ∧ perm = ModePerm := by
    obtain ⟨hashed, hmem⟩ := createUser_calls_mem d user s
    simp only [List.mem_cons, List.mem_singleton, List.not_mem_nil, or_false] at hmem
    rcases hmem with h | h | h | h | h | h | h <;> rw [h] at hcall <;> simp at hcall <;>
      exact hcall
  refine ⟨hpath.1, hpath.2, fun hne heq => hne ?_⟩
  rw [← heq, hpath.1]

/-- Witness for C16: a `LogDir` with a blank on either side of the path is
created with the blanks, in the in-memory world. -/
theorem mkdir_path_is_untrimmed_log_dir_witness :
    Call.MkdirAll " /var/log " ModePerm
      ∈ (CreateUser (memDeps okOutcomes) ⟨"admin", "s3cret", " /var/log "⟩ emptyMem).calls ∧
    " /var/log " ≠ TrimSpace " /var/log " ∧
    (CreateUser (memDeps okOutcomes) ⟨"admin", "s3cret", " /var/log "⟩ emptyMem).state.dirs
      = [" /var/log "] :=
  ⟨by decide,
    (mkdir_path_is_untrimmed_log_dir (memDeps okOutcomes) ⟨"admin", "s3cret", " /var/log "⟩
      emptyMem " /var/log " ModePerm (by decide)).2.2 (by decide),
    by decide⟩

end Theorems

end Auth
